import Mathlib

/-!
Shallow embedding of the `native-vs-evm` bytecode interpreter
(`src/evm.rs`) and verification of the frozen claims about it.

Modelling conventions:
* `U256` words and `u64`/`usize` machine integers are modelled as `Nat`,
  with an explicit `% 2^256` (resp. `% 2^64`) exactly where the Rust code
  wraps.  Release-mode (wrapping) semantics is used for the few integer
  operations that can overflow.
* The byte vectors (`Vec<u8>`) become `List Nat` (each element < 256 in
  any reachable state).
* `HashMap` becomes an association list; the code never iterates a map,
  so only lookup/insert order-insensitive semantics matter.
* Rust panics (out-of-bounds slice indexing, `unwrap` on `None`) are
  modelled by an explicit `panic` outcome of the step function / `none`
  results of the slicing helpers.
* `keccak256` is an external library function, not code of this
  repository; it is threaded through the interpreter as an explicit
  function parameter `kec`.
-/

namespace EVM

/-- `2^256`, the modulus of the 256-bit machine word. -/
def W256 : Nat := 2 ^ 256

/-- `2^64`, the modulus of `u64` / (64-bit) `usize`. -/
def W64 : Nat := 2 ^ 64

/-- `word.as_limbs()[0] as usize`: the low 64 bits of a 256-bit word. -/
def limb0 (w : Nat) : Nat := w % W64

/-- Big-endian interpretation of a byte list (`U256::from_be_slice`). -/
def beBytesToNat (bs : List Nat) : Nat :=
  bs.foldl (fun acc b => acc * 256 + b) 0

/-- `U256::to_be_bytes::<32>()`: the 32 big-endian bytes of a word. -/
def natToBe32 (v : Nat) : List Nat :=
  (List.range 32).map (fun i => v / 256 ^ (31 - i) % 256)

/-- Rust `slice.get(a..b)`: `some` of the sub-list iff `a ≤ b ≤ length`,
`none` otherwise (never a partial slice). -/
def rustSlice? (v : List Nat) (a b : Nat) : Option (List Nat) :=
  if a ≤ b ∧ b ≤ v.length then some ((v.drop a).take (b - a)) else none

/-- Rust `v[a..b].copy_from_slice(src)`: succeeds iff the range is in
bounds and `src` has exactly the range's length; `none` models the panic. -/
def sliceAssign? (v : List Nat) (a b : Nat) (src : List Nat) : Option (List Nat) :=
  if a ≤ b ∧ b ≤ v.length ∧ src.length = b - a then
    some (v.take a ++ src ++ v.drop b)
  else none

/-- Association-list lookup (`HashMap::get`). -/
def alistLookup {α : Type} : List (Nat × α) → Nat → Option α
  | [], _ => none
  | (k', v) :: t, k => if k' = k then some v else alistLookup t k

/-- Association-list insert-or-replace (`HashMap::insert`). -/
def alistInsert {α : Type} : List (Nat × α) → Nat → α → List (Nat × α)
  | [], k, v => [(k, v)]
  | (k', v') :: t, k, v =>
      if k' = k then (k, v) :: t else (k', v') :: alistInsert t k v

/-! Opcode constants (`const … : u8` in `evm.rs`). -/

@[simp] def STOP : Nat := 0x00
@[simp] def ADD : Nat := 0x01
@[simp] def MUL : Nat := 0x02
@[simp] def SUB : Nat := 0x03
@[simp] def DIV : Nat := 0x04
@[simp] def LT : Nat := 0x10
@[simp] def GT : Nat := 0x11
@[simp] def EQ : Nat := 0x14
@[simp] def ISZERO : Nat := 0x15
@[simp] def SHA3 : Nat := 0x20
@[simp] def CALLDATALOAD : Nat := 0x35
@[simp] def MLOAD : Nat := 0x51
@[simp] def MSTORE : Nat := 0x52
@[simp] def POP : Nat := 0x50
@[simp] def SLOAD : Nat := 0x54
@[simp] def SSTORE : Nat := 0x55
@[simp] def JUMP : Nat := 0x56
@[simp] def JUMPI : Nat := 0x57
@[simp] def JUMPDEST : Nat := 0x5b
@[simp] def PUSH1 : Nat := 0x60
@[simp] def PUSH32 : Nat := 0x7f
@[simp] def DUP1 : Nat := 0x80
@[simp] def DUP16 : Nat := 0x8f
@[simp] def SWAP1 : Nat := 0x90
@[simp] def SWAP16 : Nat := 0x9f
@[simp] def CALL : Nat := 0xf1
@[simp] def RETURNDATASIZE : Nat := 0x3d
@[simp] def RETURNDATACOPY : Nat := 0x3e
@[simp] def RETURN : Nat := 0xf3
@[simp] def REVERT : Nat := 0xfd

/-- `enum ExecutionResult` of `evm.rs`. -/
inductive ExecutionResult : Type where
  | Success (data : List Nat)
  | Revert (data : List Nat)
  | OutOfGas
  | InvalidOpcode
  | InvalidJump
  | StackUnderflow
deriving DecidableEq

/-- `struct Account` of `evm.rs` (code / jumpdests are shared `Rc`s in
Rust; sharing is irrelevant to the observable semantics). -/
structure Account : Type where
  balance : Nat
  code : List Nat
  jumpdests : List Nat
  storage : List (Nat × Nat)
  nonce : Nat
deriving DecidableEq

/-- `Account::default()`. -/
def defaultAccount : Account :=
  { balance := 0, code := [], jumpdests := [], storage := [], nonce := 0 }

/-- `struct Frame` of `evm.rs`.  The operand stack is a list with the
top at the head (Rust keeps the top at the end of the `Vec`). -/
structure Frame : Type where
  pc : Nat
  stack : List Nat
  memory : List Nat
  memory_size_words : Nat
  calldata : List Nat
  gas : Nat
  code : List Nat
  jumpdests : List Nat
  caller : Nat
  callee : Nat
deriving DecidableEq

/-- `struct Machine` of `evm.rs`.  The call stack is a list with the
top (currently executing) frame at the head. -/
structure Machine : Type where
  accounts : List (Nat × Account)
  call_stack : List Frame
  return_data : List Nat
  last_call_return : Nat × Nat
deriving DecidableEq

/-- `Frame::calculate_memory_cost`: `words*3 + words*words/512` in
wrapping `u64` arithmetic (`words*words` overflows for `words ≥ 2^32`). -/
def calculate_memory_cost (words : Nat) : Nat :=
  (words * 3 % W64 + words * words % W64 / 512) % W64

/-- `Frame::charge_memory_expansion_gas`.  `offset.saturating_add(size)`
clamps at `2^64 − 1`; the cost difference is a wrapping `u64`
subtraction.  On `OutOfGas` the frame is left untouched. -/
def charge_memory_expansion_gas (f : Frame) (offset size : Nat) :
    Except ExecutionResult Frame :=
  let new_size_bytes := min (offset + size) (W64 - 1)
  if new_size_bytes = 0 then .ok f
  else
    let new_size_words := (new_size_bytes - 1) / 32 + 1
    if new_size_words > f.memory_size_words then
      let old_cost := calculate_memory_cost f.memory_size_words
      let new_cost := calculate_memory_cost new_size_words
      let cost_diff := (new_cost + W64 - old_cost) % W64
      if f.gas < cost_diff then .error .OutOfGas
      else .ok { f with gas := f.gas - cost_diff,
                        memory_size_words := new_size_words }
    else .ok f

/-- `Frame::memory_resize`: grow the byte buffer to `new_size`,
zero-filling; never shrinks. -/
def memory_resize (f : Frame) (new_size : Nat) : Frame :=
  if new_size > f.memory.length then
    { f with memory := f.memory ++ List.replicate (new_size - f.memory.length) 0 }
  else f

/-- `frame.stack.pop()`: `none` on an empty stack. -/
def popF (f : Frame) : Option (Nat × Frame) :=
  match f.stack with
  | [] => none
  | x :: s => some (x, { f with stack := s })

/-- `Machine::get_opcode_cost`. -/
def get_opcode_cost (op : Nat) : Nat :=
  if op = STOP ∨ op = JUMPDEST then 0
  else if op = ADD ∨ op = SUB ∨ op = POP ∨ op = LT ∨ op = GT ∨ op = EQ ∨ op = ISZERO then 3
  else if op = MUL ∨ op = DIV then 5
  else if PUSH1 ≤ op ∧ op ≤ PUSH32 then 3
  else if DUP1 ≤ op ∧ op ≤ DUP16 then 3
  else if SWAP1 ≤ op ∧ op ≤ SWAP16 then 3
  else if op = MLOAD ∨ op = MSTORE then 3
  else if op = SSTORE then 20000
  else if op = SLOAD then 800
  else if op = JUMP then 8
  else if op = JUMPI then 10
  else if op = SHA3 then 30
  else 0

/-- Loop body of `Machine::analyze_jumpdests`, with a structural fuel
counter so the kernel can evaluate it: every iteration advances `i` by
at least one and the loop exits once `i ≥ code.length`, so a fuel of
`code.length - i` (or more) never runs out. -/
def analyzeFuel (code : List Nat) : Nat → Nat → List Nat
  | 0, _ => []
  | fuel + 1, i =>
    if i < code.length then
      let opcode := code.getD i 0
      if opcode = JUMPDEST then i :: analyzeFuel code fuel (i + 1)
      else if PUSH1 ≤ opcode ∧ opcode ≤ PUSH32 then
        analyzeFuel code fuel (i + (opcode - PUSH1 + 1) + 1)
      else analyzeFuel code fuel (i + 1)
    else []

/-- `Machine::analyze_jumpdests`: scan the code, recording `JUMPDEST`
offsets and skipping `PUSHn` immediates. -/
def analyze_jumpdests (code : List Nat) : List Nat :=
  analyzeFuel code code.length 0

/-- The fixed outermost callee `0x1000…000` of `Machine::new`. -/
def entryCallee : Nat := 0x1000000000000000000000000000000000000000

/-- `Machine::new`. -/
def Machine.new (code calldata : List Nat) (storage : List (Nat × Nat))
    (gas_limit : Nat) : Machine :=
  let jd := analyze_jumpdests code
  { accounts := [(entryCallee,
      { balance := 0, code := code, jumpdests := jd, storage := storage, nonce := 0 })],
    call_stack := [{ pc := 0, stack := [], memory := [], memory_size_words := 0,
                     calldata := calldata, gas := gas_limit, code := code,
                     jumpdests := jd, caller := 0, callee := entryCallee }],
    return_data := [],
    last_call_return := (0, 0) }

/-- The `if let Some(caller_frame)` block of `Machine::handle_frame_end`:
refund the ended frame's residual gas (wrapping `u64` addition), push
the `1`/`0` status word, and copy `min(return_data.len, pending size)`
bytes of the return data into the caller's memory at the pending
offset, growing the buffer first.  `none` models an out-of-bounds
copy panic. -/
def copyBackToCaller (rd : List Nat) (lcr : Nat × Nat) (success : Bool)
    (ended caller : Frame) : Option Frame :=
  let caller := { caller with
    gas := (caller.gas + ended.gas) % W64,
    stack := (if success then 1 else 0) :: caller.stack }
  let ret_offset := lcr.1
  let ret_size := lcr.2
  let size_to_copy := min rd.length ret_size
  if size_to_copy > 0 then
    let caller := memory_resize caller ((ret_offset + size_to_copy) % W64)
    match sliceAssign? caller.memory ret_offset
        ((ret_offset + size_to_copy) % W64) (rd.take size_to_copy) with
    | none => none
    | some mem' => some { caller with memory := mem' }
  else some caller

/-- `Machine::handle_frame_end`: pop the ended frame, publish its
return-data slice (all-or-nothing `get(offset..offset+size)`), and if a
caller frame remains, apply `copyBackToCaller` to it.  `none` models
the panics (`pop().unwrap()` on an empty call stack, out-of-bounds
copy-back). -/
def handle_frame_end (m : Machine) (success : Bool) (offset size : Nat) :
    Option Machine :=
  match m.call_stack with
  | [] => none
  | ended :: rest =>
    let rd := if size > 0
      then (rustSlice? ended.memory offset ((offset + size) % W64)).getD []
      else []
    match rest with
    | [] => some { m with call_stack := [], return_data := rd }
    | caller :: rest' =>
      match copyBackToCaller rd m.last_call_return success ended caller with
      | none => none
      | some caller' =>
        some { m with call_stack := caller' :: rest', return_data := rd }

/-- Outcome of one interpreter step: continue with a new machine state,
halt the whole run with an `ExecutionResult` (the machine state at the
moment of halting is kept for inspection), or a Rust panic. -/
inductive StepOut : Type where
  | next (m : Machine)
  | halt (m : Machine) (r : ExecutionResult)
  | panic
deriving DecidableEq

/-- `Machine::step` (one iteration of the dispatch `match`).  `kec` is
the external `keccak256` function. -/
def step (kec : List Nat → Nat) (m : Machine) : StepOut :=
  match m.call_stack with
  | [] => .panic
  | f :: rest =>
    if f.pc ≥ f.code.length then
      match handle_frame_end m true 0 0 with
      | none => .panic
      | some m' => .next m'
    else
    -- read_opcode: pc < len, so return code[pc] and advance
    let opcode := f.code.getD f.pc 0
    let f := { f with pc := f.pc + 1 }
    let cost := get_opcode_cost opcode
    if f.gas < cost then
      .halt { m with call_stack := { f with gas := 0 } :: rest } .OutOfGas
    else
    let f := { f with gas := f.gas - cost }
    let M : Frame → Machine := fun f' => { m with call_stack := f' :: rest }
    if opcode = STOP then
      match handle_frame_end (M f) true 0 0 with
      | none => .panic
      | some m' => .next m'
    else if opcode = RETURN then
      match popF f with
      | none => .halt (M f) .StackUnderflow
      | some (a, f) =>
      match popF f with
      | none => .halt (M f) .StackUnderflow
      | some (b, f) =>
      let offset := limb0 a
      let size := limb0 b
      match charge_memory_expansion_gas f offset size with
      | .error e => .halt (M f) e
      | .ok f =>
      match handle_frame_end (M f) true offset size with
      | none => .panic
      | some m' => .next m'
    else if opcode = REVERT then
      match popF f with
      | none => .halt (M f) .StackUnderflow
      | some (a, f) =>
      match popF f with
      | none => .halt (M f) .StackUnderflow
      | some (b, f) =>
      let offset := limb0 a
      let size := limb0 b
      match charge_memory_expansion_gas f offset size with
      | .error e => .halt (M f) e
      | .ok f =>
      match handle_frame_end (M f) false offset size with
      | none => .panic
      | some m' => .halt m' (.Revert m'.return_data)
    else if opcode = ADD then
      match popF f with
      | none => .halt (M f) .StackUnderflow
      | some (a, f) =>
      match popF f with
      | none => .halt (M f) .StackUnderflow
      | some (b, f) => .next (M { f with stack := (a + b) % W256 :: f.stack })
    else if opcode = MUL then
      match popF f with
      | none => .halt (M f) .StackUnderflow
      | some (a, f) =>
      match popF f with
      | none => .halt (M f) .StackUnderflow
      | some (b, f) => .next (M { f with stack := a * b % W256 :: f.stack })
    else if opcode = SUB then
      match popF f with
      | none => .halt (M f) .StackUnderflow
      | some (b, f) =>
      match popF f with
      | none => .halt (M f) .StackUnderflow
      | some (a, f) => .next (M { f with stack := (a + W256 - b) % W256 :: f.stack })
    else if opcode = DIV then
      match popF f with
      | none => .halt (M f) .StackUnderflow
      | some (b, f) =>
      match popF f with
      | none => .halt (M f) .StackUnderflow
      | some (a, f) =>
        if b = 0 then .next (M { f with stack := 0 :: f.stack })
        else .next (M { f with stack := a / b :: f.stack })
    else if opcode = LT then
      match popF f with
      | none => .halt (M f) .StackUnderflow
      | some (b, f) =>
      match popF f with
      | none => .halt (M f) .StackUnderflow
      | some (a, f) =>
        .next (M { f with stack := (if a < b then 1 else 0) :: f.stack })
    else if opcode = GT then
      match popF f with
      | none => .halt (M f) .StackUnderflow
      | some (b, f) =>
      match popF f with
      | none => .halt (M f) .StackUnderflow
      | some (a, f) =>
        .next (M { f with stack := (if a > b then 1 else 0) :: f.stack })
    else if opcode = EQ then
      match popF f with
      | none => .halt (M f) .StackUnderflow
      | some (b, f) =>
      match popF f with
      | none => .halt (M f) .StackUnderflow
      | some (a, f) =>
        .next (M { f with stack := (if a = b then 1 else 0) :: f.stack })
    else if opcode = ISZERO then
      match popF f with
      | none => .halt (M f) .StackUnderflow
      | some (a, f) =>
        .next (M { f with stack := (if a = 0 then 1 else 0) :: f.stack })
    else if opcode = SHA3 then
      match popF f with
      | none => .halt (M f) .StackUnderflow
      | some (a, f) =>
      match popF f with
      | none => .halt (M f) .StackUnderflow
      | some (b, f) =>
      let offset := limb0 a
      let size := limb0 b
      match charge_memory_expansion_gas f offset size with
      | .error e => .halt (M f) e
      | .ok f =>
      let f := memory_resize f ((offset + size) % W64)
      match rustSlice? f.memory offset ((offset + size) % W64) with
      | none => .panic
      | some data => .next (M { f with stack := kec data :: f.stack })
    else if opcode = CALLDATALOAD then
      match popF f with
      | none => .halt (M f) .StackUnderflow
      | some (a, f) =>
      let offset := limb0 a
      let value :=
        if offset < f.calldata.length then
          let e := min (offset + 32) f.calldata.length
          let slice := (f.calldata.drop offset).take (e - offset)
          beBytesToNat (slice ++ List.replicate (32 - slice.length) 0)
        else 0
      .next (M { f with stack := value :: f.stack })
    else if opcode = MLOAD then
      match popF f with
      | none => .halt (M f) .StackUnderflow
      | some (a, f) =>
      let offset := limb0 a
      match charge_memory_expansion_gas f offset 32 with
      | .error e => .halt (M f) e
      | .ok f =>
      let f := memory_resize f ((offset + 32) % W64)
      match rustSlice? f.memory offset ((offset + 32) % W64) with
      | none => .panic
      | some data => .next (M { f with stack := beBytesToNat data :: f.stack })
    else if opcode = MSTORE then
      match popF f with
      | none => .halt (M f) .StackUnderflow
      | some (a, f) =>
      match popF f with
      | none => .halt (M f) .StackUnderflow
      | some (value, f) =>
      let offset := limb0 a
      match charge_memory_expansion_gas f offset 32 with
      | .error e => .halt (M f) e
      | .ok f =>
      let f := memory_resize f ((offset + 32) % W64)
      match sliceAssign? f.memory offset ((offset + 32) % W64) (natToBe32 value) with
      | none => .panic
      | some mem' => .next (M { f with memory := mem' })
    else if opcode = SLOAD then
      match popF f with
      | none => .halt (M f) .StackUnderflow
      | some (key, f) =>
      let value :=
        match alistLookup m.accounts f.callee with
        | none => 0
        | some acc => (alistLookup acc.storage key).getD 0
      .next (M { f with stack := value :: f.stack })
    else if opcode = SSTORE then
      match popF f with
      | none => .halt (M f) .StackUnderflow
      | some (key, f) =>
      match popF f with
      | none => .halt (M f) .StackUnderflow
      | some (value, f) =>
      let acc := (alistLookup m.accounts f.callee).getD defaultAccount
      let acc := { acc with storage := alistInsert acc.storage key value }
      .next { m with accounts := alistInsert m.accounts f.callee acc,
                     call_stack := f :: rest }
    else if opcode = JUMP then
      match popF f with
      | none => .halt (M f) .StackUnderflow
      | some (a, f) =>
      let dest := limb0 a
      if f.jumpdests.contains dest then .next (M { f with pc := dest })
      else .halt (M f) .InvalidJump
    else if opcode = JUMPI then
      match popF f with
      | none => .halt (M f) .StackUnderflow
      | some (a, f) =>
      match popF f with
      | none => .halt (M f) .StackUnderflow
      | some (cond, f) =>
      let dest := limb0 a
      if f.jumpdests.contains dest then
        if cond ≠ 0 then .next (M { f with pc := dest })
        else .next (M f)
      else .halt (M f) .InvalidJump
    else if opcode = JUMPDEST then
      .next (M f)
    else if PUSH1 ≤ opcode ∧ opcode ≤ PUSH32 then
      let num_bytes_to_push := opcode - PUSH1 + 1
      let start := f.pc
      let stop := f.pc + num_bytes_to_push
      if stop > f.code.length then
        let existing := f.code.drop start
        let padded := existing ++ List.replicate (num_bytes_to_push - existing.length) 0
        .next (M { f with stack := beBytesToNat padded :: f.stack,
                          pc := f.code.length })
      else
        .next (M { f with stack := beBytesToNat ((f.code.drop start).take num_bytes_to_push) :: f.stack,
                          pc := stop })
    else if opcode = POP then
      match popF f with
      | none => .halt (M f) .StackUnderflow
      | some (_, f) => .next (M f)
    else if DUP1 ≤ opcode ∧ opcode ≤ DUP16 then
      let index := opcode - DUP1
      if f.stack.length ≤ index then .halt (M f) .StackUnderflow
      else .next (M { f with stack := f.stack.getD index 0 :: f.stack })
    else if SWAP1 ≤ opcode ∧ opcode ≤ SWAP16 then
      let index := opcode - SWAP1 + 1
      if f.stack.length ≤ index then .halt (M f) .StackUnderflow
      else
        let s := f.stack
        .next (M { f with stack := (s.set 0 (s.getD index 0)).set index (s.getD 0 0) })
    else if opcode = CALL then
      match popF f with
      | none => .halt (M f) .StackUnderflow
      | some (gas_limit_u256, f) =>
      match popF f with
      | none => .halt (M f) .StackUnderflow
      | some (to_address_u256, f) =>
      let to_address := to_address_u256 % 2 ^ 160
      match popF f with
      | none => .halt (M f) .StackUnderflow
      | some (_value, f) =>
      match popF f with
      | none => .halt (M f) .StackUnderflow
      | some (w4, f) =>
      match popF f with
      | none => .halt (M f) .StackUnderflow
      | some (w5, f) =>
      match popF f with
      | none => .halt (M f) .StackUnderflow
      | some (w6, f) =>
      match popF f with
      | none => .halt (M f) .StackUnderflow
      | some (w7, f) =>
      let args_offset := limb0 w4
      let args_size := limb0 w5
      let ret_offset := limb0 w6
      let ret_size := limb0 w7
      match charge_memory_expansion_gas f args_offset args_size with
      | .error e => .halt (M f) e
      | .ok f =>
      match charge_memory_expansion_gas f ret_offset ret_size with
      | .error e => .halt (M f) e
      | .ok f =>
      let m := { m with last_call_return := (ret_offset, ret_size) }
      let gas_limit := if gas_limit_u256 > W64 - 1 then f.gas else limb0 gas_limit_u256
      let gas_to_send := min (f.gas - f.gas / 64) gas_limit
      let f := { f with gas := f.gas - gas_to_send }
      let target_account := (alistLookup m.accounts to_address).getD defaultAccount
      let new_calldata? :=
        if args_size > 0 then
          rustSlice? f.memory args_offset ((args_offset + args_size) % W64)
        else some []
      match new_calldata? with
      | none => .panic
      | some new_calldata =>
      let new_frame : Frame :=
        { pc := 0, gas := gas_to_send, calldata := new_calldata,
          code := target_account.code, jumpdests := target_account.jumpdests,
          caller := f.callee, callee := to_address,
          stack := [], memory := [], memory_size_words := 0 }
      .next { m with call_stack := new_frame :: f :: rest }
    else if opcode = RETURNDATASIZE then
      .next (M { f with stack := m.return_data.length :: f.stack })
    else if opcode = RETURNDATACOPY then
      match popF f with
      | none => .halt (M f) .StackUnderflow
      | some (a, f) =>
      match popF f with
      | none => .halt (M f) .StackUnderflow
      | some (b, f) =>
      match popF f with
      | none => .halt (M f) .StackUnderflow
      | some (c, f) =>
      let mem_offset := limb0 a
      let return_offset := limb0 b
      let size := limb0 c
      if min (return_offset + size) (W64 - 1) > m.return_data.length then
        .halt (M f) .InvalidOpcode
      else
      match charge_memory_expansion_gas f mem_offset size with
      | .error e => .halt (M f) e
      | .ok f =>
      let f := memory_resize f ((mem_offset + size) % W64)
      match rustSlice? m.return_data return_offset (return_offset + size) with
      | none => .panic
      | some src =>
      match sliceAssign? f.memory mem_offset ((mem_offset + size) % W64) src with
      | none => .panic
      | some mem' => .next (M { f with memory := mem' })
    else
      .halt (M f) .InvalidOpcode

/-- `Machine::run`, fuel-indexed.  `some (r, m')` is the returned
`ExecutionResult` with the final machine state; `none` means the fuel
ran out or a panic occurred. -/
def runFuel (kec : List Nat → Nat) : Nat → Machine → Option (ExecutionResult × Machine)
  | 0, _ => none
  | fuel + 1, m =>
    if m.call_stack.isEmpty then
      some (.Success m.return_data, { m with return_data := [] })
    else
      match step kec m with
      | .panic => none
      | .halt m' r => some (r, m')
      | .next m' => runFuel kec fuel m'

/-- Execute at most `n` steps of `run`, stopping early (with the state
at that moment) when the run terminates or halts; `none` exactly when a
panic occurs within the first `n` steps. -/
def stepN (kec : List Nat → Nat) : Nat → Machine → Option Machine
  | 0, m => some m
  | n + 1, m =>
    if m.call_stack.isEmpty then some m
    else
      match step kec m with
      | .panic => none
      | .halt m' _ => some m'
      | .next m' => stepN kec n m'

/-- The `ExecutionResult` a step halts with, if any. -/
def stepResult (kec : List Nat → Nat) (m : Machine) : Option ExecutionResult :=
  match step kec m with
  | .halt _ r => some r
  | _ => none

/-- The machine a step continues with, if any. -/
def stepNext (kec : List Nat → Nat) (m : Machine) : Option Machine :=
  match step kec m with
  | .next m' => some m'
  | _ => none

/-- The top frame of the machine a step continues with, if any. -/
def stepTopFrame (kec : List Nat → Nat) (m : Machine) : Option Frame :=
  (stepNext kec m).bind (fun m' => m'.call_stack.head?)

/-- A trivial stand-in for the external `keccak256` parameter, used for
concrete runs that never reach `SHA3`. -/
def kec0 : List Nat → Nat := fun _ => 0

/-! Concrete machines and spec-side functions used to settle the claims. -/

/-- The memory-cost formula exactly as claim C5 states it:
`cost(w) = 3·w + floor(w²/512)` in unbounded arithmetic. -/
def costClaimC5 (w : Nat) : Nat := 3 * w + w ^ 2 / 512

/-- The amended claim C5's cost formula: `3·w + floor(w²/512)` with the
square computed in wrapping 64-bit arithmetic. -/
def costAmendedC5 (w : Nat) : Nat := 3 * w + w ^ 2 % W64 / 512

/-- A frame about to request a memory expansion to `2^37` bytes
(`2^32` words): the point where the claimed cost formula and the
code's wrapping `u64` arithmetic part ways. -/
def c5frame : Frame :=
  { pc := 0, stack := [], memory := [], memory_size_words := 0, calldata := [],
    gas := 2 ^ 63, code := [], jumpdests := [], caller := 0, callee := 0 }

/-- Bytecode driving claim C2's failing input: push `ret_size = 0`,
`ret_offset = 0`, `args_size = 0x20`, `args_offset = 0`, `value = 0`,
`to = 0x42`, `gas_limit = 0x64`, then `CALL` — with the caller's memory
buffer still empty. -/
def c2code : List Nat :=
  [0x60, 0x00, 0x60, 0x00, 0x60, 0x20, 0x60, 0x00, 0x60, 0x00, 0x60, 0x42,
   0x60, 0x64, 0xf1]

/-- Claim C7's innermost contract (at address `0x42`): store `0xBB`,
return 32 bytes of memory. -/
def c7B : List Nat := [0x60, 0xBB, 0x60, 0x00, 0x52, 0x60, 0x20, 0x60, 0x00, 0xf3]

/-- Claim C7's middle contract (at address `0x41`): store `0xAA` at
offset 0, `CALL` `0x42` with return window `(0x40, 0x20)`, then return
its own bytes `[0, 32)`. -/
def c7A : List Nat :=
  [0x60, 0xAA, 0x60, 0x00, 0x52, 0x60, 0x20, 0x60, 0x40, 0x60, 0x00, 0x60, 0x00,
   0x60, 0x00, 0x60, 0x42, 0x60, 0x64, 0xf1, 0x50, 0x60, 0x20, 0x60, 0x00, 0xf3]

/-- Claim C7's outermost contract: `CALL` `0x41` with return window
`(0, 0x20)`, then return its own memory bytes `[0, 0x60)`. -/
def c7main : List Nat :=
  [0x60, 0x20, 0x60, 0x00, 0x60, 0x00, 0x60, 0x00, 0x60, 0x00, 0x60, 0x41,
   0x61, 0x03, 0xE8, 0xf1, 0x50, 0x60, 0x60, 0x60, 0x00, 0xf3]

/-- The account holding `c7A`. -/
def c7acctA : Account :=
  { defaultAccount with code := c7A, jumpdests := analyze_jumpdests c7A }

/-- The account holding `c7B`. -/
def c7acctB : Account :=
  { defaultAccount with code := c7B, jumpdests := analyze_jumpdests c7B }

/-- Claim C7's machine: `c7main` as entry code, with `0x41 ↦ c7A` and
`0x42 ↦ c7B` installed (the same setup the repository's call test uses). -/
def c7machine : Machine :=
  let m := Machine.new c7main [] [] 10000
  { m with accounts := alistInsert (alistInsert m.accounts 0x41 c7acctA) 0x42 c7acctB }

/-- Claim C1's ended frame: about to execute `RETURN` with
`offset = 31`, `size = 2` while its memory holds 32 bytes ending in
`0xde` — a partially out-of-bounds request. -/
def c1frame : Frame :=
  { pc := 0, stack := [31, 2], memory := List.replicate 31 0 ++ [0xde],
    memory_size_words := 1, calldata := [], gas := 100, code := [0xf3],
    jumpdests := [], caller := 0, callee := 0 }

/-- Claim C1's machine: a single frame about to `RETURN` a partially
out-of-bounds slice; `return_data` starts nonempty to show it is
overwritten, not merely left empty. -/
def c1machine : Machine :=
  { accounts := [], call_stack := [c1frame], return_data := [0x99],
    last_call_return := (0, 0) }

/-- Claim C3's bytecode: 1025 `RETURNDATASIZE` opcodes, each of which
pushes one word (and costs no gas), driving the operand stack to depth
1025. -/
def c3code : List Nat := List.replicate 1025 0x3d

/-- The machine state after `k` steps of `c3code` from
`Machine.new c3code [] [] 0`: program counter `k` and `k` zero words on
the operand stack. -/
def c3state (k : Nat) : Machine :=
  ⟨[(entryCallee, ⟨0, c3code, analyze_jumpdests c3code, [], 0⟩)],
   [⟨k, List.replicate k 0, [], 0, [], 0, c3code, analyze_jumpdests c3code, 0, entryCallee⟩],
   [], (0, 0)⟩

/-- The `(child gas, caller gas)` pair after a step that pushes a new
frame, if any. -/
def childCallerGas (kec : List Nat → Nat) (m : Machine) : Option (Nat × Nat) :=
  match step kec m with
  | .next m' =>
    match m'.call_stack with
    | c :: p :: _ => some (c.gas, p.gas)
    | _ => none
  | _ => none

/-! ## Theorems -/

set_option maxRecDepth 100000

set_option maxHeartbeats 2000000

/-- `W64` as a numeral, for `omega`. -/
theorem W64_eq : W64 = 18446744073709551616 := by norm_num [W64]

/-- For word counts up to `2^59` (every count `charge_memory_expansion_gas`
can store) the code's wrapping cost computation agrees with the amended
formula. -/
theorem calculate_memory_cost_eq (w : Nat) (h : w ≤ 2 ^ 59) :
    calculate_memory_cost w = costAmendedC5 w := by
  unfold calculate_memory_cost costAmendedC5
  have h64 := W64_eq
  have h3 : w * 3 < W64 := by omega
  have hsq : w ^ 2 % W64 < W64 := by
    exact Nat.mod_lt _ (by omega)
  have hdiv : w ^ 2 % W64 / 512 ≤ W64 / 512 := Nat.div_le_div_right (le_of_lt hsq)
  rw [← Nat.pow_two, Nat.mod_eq_of_lt h3, Nat.mod_eq_of_lt (by omega)]
  omega

/-- Claim C5, counterexample: on a frame with `2^63` gas and no memory,
a request for `2^37` bytes (`2^32` words) succeeds and deducts
`12884901888 = 3·2^32` — the `words²` term wrapped to zero in `u64` —
whereas the claim's formula `cost(w) = 3·w + floor(w²/512)` demands a
deduction of `36028809903865856`. -/
theorem C5_counterexample :
    charge_memory_expansion_gas c5frame (2 ^ 37) 0 =
      .ok { c5frame with gas := 9223372023969873920, memory_size_words := 2 ^ 32 } ∧
    c5frame.gas - 9223372023969873920 = 12884901888 ∧
    costClaimC5 (2 ^ 32) - costClaimC5 0 = 36028809903865856 ∧
    (12884901888 : Nat) ≠ 36028809903865856 := by
  refine ⟨by rfl, by norm_num [c5frame], ?_, by norm_num⟩
  norm_num [costClaimC5]

/-- Claim C5 as amended: `charge_memory_expansion_gas(offset, size)`
computes `new_bytes = offset + size` saturating at `2^64 − 1`; does
nothing if `new_bytes = 0` or `ceil(new_bytes/32) ≤ memory_size_words`;
otherwise deducts `cost(new_words) − cost(old_words)` (wrapping `u64`
subtraction) where `cost(w) = 3·w + floor((w² mod 2^64)/512)`, failing
with `OutOfGas` and leaving the frame untouched when gas is short, and
updating `memory_size_words` on success.  The hypothesis
`memory_size_words ≤ 2^59` holds in every reachable frame (the field is
only ever set to `ceil(b/32)` for some `b ≤ 2^64 − 1`). -/
theorem C5_amended (f : Frame) (offset size : Nat)
    (hmsw : f.memory_size_words ≤ 2 ^ 59) :
    charge_memory_expansion_gas f offset size =
      (if min (offset + size) (W64 - 1) = 0 then .ok f
       else if (min (offset + size) (W64 - 1) + 31) / 32 ≤ f.memory_size_words then
         .ok f
       else if f.gas < (costAmendedC5 ((min (offset + size) (W64 - 1) + 31) / 32)
                          + W64 - costAmendedC5 f.memory_size_words) % W64 then
         .error .OutOfGas
       else
         .ok { f with
           gas := f.gas - (costAmendedC5 ((min (offset + size) (W64 - 1) + 31) / 32)
                             + W64 - costAmendedC5 f.memory_size_words) % W64,
           memory_size_words := (min (offset + size) (W64 - 1) + 31) / 32 }) := by
  have h64 := W64_eq
  unfold charge_memory_expansion_gas
  by_cases h0 : min (offset + size) (W64 - 1) = 0
  · simp [h0]
  · have hnb : min (offset + size) (W64 - 1) ≤ W64 - 1 := min_le_right _ _
    have hceil : (min (offset + size) (W64 - 1) - 1) / 32 + 1 =
        (min (offset + size) (W64 - 1) + 31) / 32 := by omega
    have hwords : (min (offset + size) (W64 - 1) + 31) / 32 ≤ 2 ^ 59 := by omega
    simp only [if_neg h0, hceil, calculate_memory_cost_eq _ hwords,
      calculate_memory_cost_eq _ hmsw, gt_iff_lt]
    by_cases hgt : f.memory_size_words < (min (offset + size) (W64 - 1) + 31) / 32
    · rw [if_pos hgt,
        if_neg (show ¬ (min (offset + size) (W64 - 1) + 31) / 32 ≤ f.memory_size_words
          by omega)]
    · rw [if_neg hgt,
        if_pos (show (min (offset + size) (W64 - 1) + 31) / 32 ≤ f.memory_size_words
          by omega)]

/-- Witness for `C5_amended`: a frame with 100 gas and no memory charged
for the window `[0, 32)` pays `3` and records one word. -/
theorem C5_amended_witness :
    charge_memory_expansion_gas
        { pc := 0, stack := [], memory := [], memory_size_words := 0,
          calldata := [], gas := 100, code := [], jumpdests := [],
          caller := 0, callee := 0 } 0 32 =
      .ok { pc := 0, stack := [], memory := [], memory_size_words := 1,
            calldata := [], gas := 97, code := [], jumpdests := [],
            caller := 0, callee := 0 } := by
  have h := C5_amended
    { pc := 0, stack := [], memory := [], memory_size_words := 0,
      calldata := [], gas := 100, code := [], jumpdests := [],
      caller := 0, callee := 0 } 0 32 (by norm_num)
  simpa [costAmendedC5, W64] using h

/-- What `handle_frame_end` publishes: whenever it succeeds, the new
return-data buffer is the all-or-nothing `get(offset..offset+size)`
slice of the ended frame's memory (empty when the request is zero-sized
or any part of the range is out of bounds), and the pending copy-back
pair is left untouched. -/
theorem handle_frame_end_spec (m : Machine) (success : Bool) (offset size : Nat)
    (ended : Frame) (rest : List Frame)
    (hcs : m.call_stack = ended :: rest) (m' : Machine)
    (h : handle_frame_end m success offset size = some m') :
    m'.return_data =
      (if size > 0 then
        (rustSlice? ended.memory offset ((offset + size) % W64)).getD []
      else []) ∧
    m'.last_call_return = m.last_call_return := by
  obtain ⟨ac, cs, rd0, lcr⟩ := m
  simp only at hcs
  subst hcs
  rcases rest with _ | ⟨caller, rest'⟩
  · simp only [handle_frame_end, Option.some.injEq] at h
    subst h
    exact ⟨rfl, rfl⟩
  · simp only [handle_frame_end] at h
    cases hcb : copyBackToCaller
        (if size > 0 then (rustSlice? ended.memory offset ((offset + size) % W64)).getD []
         else []) lcr success ended caller with
    | none => rw [hcb] at h; exact absurd h (by simp)
    | some caller' =>
      rw [hcb] at h
      simp only [Option.some.injEq] at h
      subst h
      exact ⟨rfl, rfl⟩

/-- Claim C1, counterexample: `c1machine`'s only frame executes
`RETURN` with `offset = 31`, `size = 2` while its memory has 32 bytes
(the last one `0xde`).  The claim demands the partial slice
`[31, 32) = [0xde]`; the code's `memory.get(31..33)` is `None`, so the
return-data buffer is set to `[]` instead. -/
theorem C1_counterexample :
    (stepNext kec0 c1machine).map (fun m' => m'.return_data) = some [] ∧
    (c1frame.memory.drop 31).take 2 = [0xde] ∧
    ([] : List Nat) ≠ [0xde] := by
  exact ⟨by rfl, by rfl, by decide⟩

/-- Claim C1 as amended: when a frame ends with a nonzero return-size
request `(offset, size)`, the return-data buffer becomes the slice
`[offset, offset+size)` of the ended frame's memory if that range lies
entirely within the memory, and is set to empty otherwise (even when
only the tail of the range is missing — no partial slice, no
zero-filling); a zero-size request clears the buffer.  The word-size
bounds hold for every reachable frame end (`offset` and `size` come
from 64-bit truncation and memory is allocated, hence addressable,
below `2^64`). -/
theorem C1_amended (m : Machine) (success : Bool) (offset size : Nat)
    (ended : Frame) (rest : List Frame) (m' : Machine)
    (hcs : m.call_stack = ended :: rest)
    (hoff : offset < W64) (hsz : size < W64)
    (hmem : ended.memory.length < W64)
    (h : handle_frame_end m success offset size = some m') :
    m'.return_data =
      if 0 < size then
        (if offset + size ≤ ended.memory.length then
          (ended.memory.drop offset).take size
        else [])
      else [] := by
  have hspec := (handle_frame_end_spec m success offset size ended rest hcs m' h).1
  rw [hspec]
  by_cases hs : 0 < size
  · rw [if_pos (show size > 0 by omega), if_pos hs]
    by_cases hlt : offset + size < W64
    · rw [Nat.mod_eq_of_lt hlt]
      unfold rustSlice?
      by_cases hin : offset + size ≤ ended.memory.length
      · rw [if_pos ⟨by omega, hin⟩, if_pos hin]
        simp
      · rw [if_neg (by omega), if_neg hin]
        rfl
    · unfold rustSlice?
      rw [W64_eq] at hoff hsz hmem hlt ⊢
      rw [if_neg (by omega), if_neg (by omega)]
      rfl
  · rw [if_neg (show ¬ size > 0 by omega), if_neg hs]

/-- Witness for `C1_amended`: an in-bounds frame end with
`(offset, size) = (31, 1)` from a 32-byte memory publishes exactly the
one-byte slice `[0xde]`. -/
theorem C1_amended_witness :
    (⟨[], [], [0xde], (0, 0)⟩ : Machine).return_data =
      (if 0 < 1 then
        (if 31 + 1 ≤ c1frame.memory.length then (c1frame.memory.drop 31).take 1
        else [])
      else []) :=
  C1_amended c1machine true 31 1 c1frame [] ⟨[], [], [0xde], (0, 0)⟩
    (by rfl) (by decide) (by decide) (by decide) (by rfl)

/-- Claim C2 (refuted by the code — code bug): executing `c2code` from a
fresh machine panics at the eighth step, the `CALL`:
`charge_memory_expansion_gas(args_offset, args_size)` succeeds but only
updates the gas accounting, never the byte buffer, and the handler then
takes `frame.memory[0 .. 0x20]` with `frame.memory` still empty.  The
first seven steps (the pushes) complete normally. -/
theorem C2_call_slice_panics :
    (stepN kec0 7 (Machine.new c2code [] [] 1000)).isSome = true ∧
    stepN kec0 8 (Machine.new c2code [] [] 1000) = none := by
  exact ⟨by rfl, by rfl⟩

/-- Symbolic evaluation of one successful `CALL` step: given that the
two memory-expansion charges succeed (producing frames `f2`, `f3`) and
the calldata slice exists, the step records the popped return window in
`last_call_return`, forwards `min(g − ⌊g/64⌋, L′)` gas (with
`L′ = g` when the popped limit exceeds `2^64 − 1`), deducts exactly
that amount from the caller and pushes the child frame. -/
theorem step_call_eq (kec : List Nat → Nat)
    (ac : List (Nat × Account)) (rest : List Frame) (rd : List Nat) (lcr : Nat × Nat)
    (p L toW v w4 w5 w6 w7 : Nat) (s : List Nat)
    (mem : List Nat) (msw : Nat) (cd : List Nat) (g : Nat)
    (co jd : List Nat) (cr ce : Nat)
    (f2 f3 : Frame) (cdta : List Nat)
    (hcode : co.getD p 0 = CALL) (hpc : p < co.length)
    (hch1 : charge_memory_expansion_gas
        ⟨p + 1, s, mem, msw, cd, g, co, jd, cr, ce⟩ (limb0 w4) (limb0 w5) = .ok f2)
    (hch2 : charge_memory_expansion_gas f2 (limb0 w6) (limb0 w7) = .ok f3)
    (hcd : (if limb0 w5 > 0 then
        rustSlice? f3.memory (limb0 w4) ((limb0 w4 + limb0 w5) % W64)
      else some []) = some cdta) :
    step kec ⟨ac, ⟨p, L :: toW :: v :: w4 :: w5 :: w6 :: w7 :: s, mem, msw, cd, g, co, jd, cr, ce⟩ :: rest, rd, lcr⟩ =
      .next ⟨ac,
        ⟨0, [], [], 0, cdta,
          min (f3.gas - f3.gas / 64) (if L > W64 - 1 then f3.gas else limb0 L),
          ((alistLookup ac (toW % 2 ^ 160)).getD defaultAccount).code,
          ((alistLookup ac (toW % 2 ^ 160)).getD defaultAccount).jumpdests,
          f3.callee, toW % 2 ^ 160⟩ ::
        { f3 with gas := (f3.gas - min (f3.gas - f3.gas / 64) (if L > W64 - 1 then f3.gas else limb0 L)) } :: rest,
        rd, (limb0 w6, limb0 w7)⟩ := by
  simp only [step]
  rw [if_neg (by omega : ¬ p ≥ co.length)]
  rw [hcode]
  simp only [CALL, get_opcode_cost, popF, Nat.sub_zero]
  norm_num
  simp only [hch1, hch2, hcd]

/-- Claim C4: a `CALL` popping gas-limit word `L`, executed from a
caller whose gas stands at `g = f3.gas` after the two memory-expansion
charges, forwards exactly `min(g − ⌊g/64⌋, L′)` where `L′ = g` if
`L > 2^64 − 1` and `L′ = L` otherwise: the child frame's gas is that
minimum and the caller retains `g` minus it. -/
theorem C4_call_gas_forwarding (kec : List Nat → Nat)
    (ac : List (Nat × Account)) (rest : List Frame) (rd : List Nat) (lcr : Nat × Nat)
    (p L toW v w4 w5 w6 w7 : Nat) (s : List Nat)
    (mem : List Nat) (msw : Nat) (cd : List Nat) (g : Nat)
    (co jd : List Nat) (cr ce : Nat)
    (f2 f3 : Frame) (cdta : List Nat)
    (hcode : co.getD p 0 = CALL) (hpc : p < co.length)
    (hch1 : charge_memory_expansion_gas
        ⟨p + 1, s, mem, msw, cd, g, co, jd, cr, ce⟩ (limb0 w4) (limb0 w5) = .ok f2)
    (hch2 : charge_memory_expansion_gas f2 (limb0 w6) (limb0 w7) = .ok f3)
    (hcd : (if limb0 w5 > 0 then
        rustSlice? f3.memory (limb0 w4) ((limb0 w4 + limb0 w5) % W64)
      else some []) = some cdta) :
    childCallerGas kec ⟨ac, ⟨p, L :: toW :: v :: w4 :: w5 :: w6 :: w7 :: s, mem, msw, cd, g, co, jd, cr, ce⟩ :: rest, rd, lcr⟩ =
      some (min (f3.gas - f3.gas / 64) (if L > W64 - 1 then f3.gas else limb0 L),
        f3.gas - min (f3.gas - f3.gas / 64) (if L > W64 - 1 then f3.gas else limb0 L)) := by
  unfold childCallerGas
  rw [step_call_eq kec ac rest rd lcr p L toW v w4 w5 w6 w7 s mem msw cd g co jd
    cr ce f2 f3 cdta hcode hpc hch1 hch2 hcd]

/-- Witness for `C4_call_gas_forwarding`: a `CALL` with limit 100 from
a caller holding 1000 gas forwards `min(1000 − 15, 100) = 100`, leaving
the caller 900. -/
theorem C4_call_gas_forwarding_witness :
    childCallerGas kec0 ⟨[], [⟨0, [100, 0x42, 0, 0, 0, 0, 0], [], 0, [], 1000, [0xf1], [], 0, 7⟩], [], (0, 0)⟩ =
      some (100, 900) :=
  C4_call_gas_forwarding kec0 [] [] [] (0, 0) 0 100 0x42 0 0 0 0 0 [] [] 0 [] 1000
    [0xf1] [] 0 7 ⟨1, [], [], 0, [], 1000, [0xf1], [], 0, 7⟩
    ⟨1, [], [], 0, [], 1000, [0xf1], [], 0, 7⟩ [] (by rfl) (by norm_num)
    (by rfl) (by rfl) (by rfl)

/-- Claim C7: the pending copy-back pair is one machine-wide cell —
every successful `CALL` overwrites it with the window it popped, and
`handle_frame_end` never saves or restores it.  Consequently, in the
concrete nested run `c7machine` (outer contract requests return window
`(0, 0x20)`; the middle contract's own inner `CALL` requests
`(0x40, 0x20)`), the middle contract's return data is deposited in the
outer contract's memory at `[0x40, 0x60)` — the window of the most
recent `CALL` executed anywhere — leaving the requested window `[0, 0x20)`
zero: the outer frame returns its bytes `[0, 0x60)` as
`replicate 95 0 ++ [0xAA]`. -/
theorem C7_pending_window :
    (∀ (kec : List Nat → Nat)
      (ac : List (Nat × Account)) (rest : List Frame) (rd : List Nat) (lcr : Nat × Nat)
      (p L toW v w4 w5 w6 w7 : Nat) (s : List Nat)
      (mem : List Nat) (msw : Nat) (cd : List Nat) (g : Nat)
      (co jd : List Nat) (cr ce : Nat)
      (f2 f3 : Frame) (cdta : List Nat),
      co.getD p 0 = CALL → p < co.length →
      charge_memory_expansion_gas
        ⟨p + 1, s, mem, msw, cd, g, co, jd, cr, ce⟩ (limb0 w4) (limb0 w5) = .ok f2 →
      charge_memory_expansion_gas f2 (limb0 w6) (limb0 w7) = .ok f3 →
      (if limb0 w5 > 0 then
        rustSlice? f3.memory (limb0 w4) ((limb0 w4 + limb0 w5) % W64)
      else some []) = some cdta →
      (stepNext kec ⟨ac, ⟨p, L :: toW :: v :: w4 :: w5 :: w6 :: w7 :: s, mem, msw, cd, g, co, jd, cr, ce⟩ :: rest, rd, lcr⟩).map
          (fun m' => m'.last_call_return) = some (limb0 w6, limb0 w7)) ∧
    (∀ (m : Machine) (success : Bool) (offset size : Nat) (ended : Frame)
      (rest : List Frame) (m' : Machine),
      m.call_stack = ended :: rest →
      handle_frame_end m success offset size = some m' →
      m'.last_call_return = m.last_call_return) ∧
    (runFuel kec0 100 c7machine).map (fun q => q.1) =
      some (.Success (List.replicate 95 0 ++ [0xAA])) := by
  refine ⟨?_, ?_, by rfl⟩
  · intro kec ac rest rd lcr p L toW v w4 w5 w6 w7 s mem msw cd g co jd cr ce
      f2 f3 cdta hcode hpc hch1 hch2 hcd
    unfold stepNext
    rw [step_call_eq kec ac rest rd lcr p L toW v w4 w5 w6 w7 s mem msw cd g co
      jd cr ce f2 f3 cdta hcode hpc hch1 hch2 hcd]
    rfl
  · intro m success offset size ended rest m' hcs h
    exact (handle_frame_end_spec m success offset size ended rest hcs m' h).2

/-- Witness for `C7_pending_window`: a concrete successful `CALL`
popping return window `(5, 3)` overwrites the machine's pending
copy-back cell (previously `(9, 9)`) with `(5, 3)`. -/
theorem C7_pending_window_witness :
    (stepNext kec0 ⟨[], [⟨0, [200, 0x42, 0, 0, 0, 5, 3], [], 0, [], 2000, [0xf1], [], 0, 7⟩], [], (9, 9)⟩).map
        (fun m' => m'.last_call_return) = some (5, 3) :=
  C7_pending_window.1 kec0 [] [] [] (9, 9) 0 200 0x42 0 0 0 5 3 [] [] 0 [] 2000
    [0xf1] [] 0 7 ⟨1, [], [], 0, [], 2000, [0xf1], [], 0, 7⟩
    ⟨1, [], [], 1, [], 1997, [0xf1], [], 0, 7⟩ [] (by rfl) (by norm_num)
    (by rfl) (by rfl) (by rfl)


/-- Claim C6: `JUMPI` pops `dest` then `cond`; an invalid destination
fails with `InvalidJump` regardless of `cond`; a valid destination with
`cond = 0` leaves the program counter at the instruction after the
`JUMPI`; a valid destination with `cond ≠ 0` sets the program counter
to `dest`.  (`dest < 2^64` so that the popped word is its own 64-bit
truncation; claim C9 covers larger words.) -/
theorem C6_jumpi (kec : List Nat → Nat)
    (ac : List (Nat × Account)) (rest : List Frame) (rd : List Nat) (lcr : Nat × Nat)
    (p dest cond : Nat) (s mem cd co jd : List Nat) (msw g cr ce : Nat)
    (hcode : co.getD p 0 = JUMPI) (hpc : p < co.length) (hgas : 10 ≤ g)
    (hdest : dest < W64) :
    (dest ∉ jd →
      stepResult kec ⟨ac, ⟨p, dest :: cond :: s, mem, msw, cd, g, co, jd, cr, ce⟩ :: rest, rd, lcr⟩ =
        some .InvalidJump) ∧
    (dest ∈ jd → cond = 0 →
      stepNext kec ⟨ac, ⟨p, dest :: cond :: s, mem, msw, cd, g, co, jd, cr, ce⟩ :: rest, rd, lcr⟩ =
        some ⟨ac, ⟨p + 1, s, mem, msw, cd, g - 10, co, jd, cr, ce⟩ :: rest, rd, lcr⟩) ∧
    (dest ∈ jd → cond ≠ 0 →
      stepNext kec ⟨ac, ⟨p, dest :: cond :: s, mem, msw, cd, g, co, jd, cr, ce⟩ :: rest, rd, lcr⟩ =
        some ⟨ac, ⟨dest, s, mem, msw, cd, g - 10, co, jd, cr, ce⟩ :: rest, rd, lcr⟩) := by
  refine ⟨?_, ?_, ?_⟩
  · intro hmem
    unfold stepResult
    simp only [step]
    rw [if_neg (by omega : ¬ p ≥ co.length)]
    rw [hcode]
    simp only [JUMPI, get_opcode_cost, popF]
    norm_num
    rw [if_neg (by omega : ¬ g < 10)]
    simp only [limb0, Nat.mod_eq_of_lt hdest]
    norm_num [hmem]
  · intro hmem hc
    unfold stepNext
    simp only [step]
    rw [if_neg (by omega : ¬ p ≥ co.length)]
    rw [hcode]
    simp only [JUMPI, get_opcode_cost, popF]
    norm_num
    rw [if_neg (by omega : ¬ g < 10)]
    simp only [limb0, Nat.mod_eq_of_lt hdest]
    norm_num [hmem, hc]
  · intro hmem hc
    unfold stepNext
    simp only [step]
    rw [if_neg (by omega : ¬ p ≥ co.length)]
    rw [hcode]
    simp only [JUMPI, get_opcode_cost, popF]
    norm_num
    rw [if_neg (by omega : ¬ g < 10)]
    simp only [limb0, Nat.mod_eq_of_lt hdest]
    norm_num [hmem, hc]

/-- Witness for `C6_jumpi` (third case): a valid jump with a true
condition moves the program counter to the destination. -/
theorem C6_jumpi_witness :
    stepNext kec0 ⟨[], [⟨0, [2, 1], [], 0, [], 50, [0x57], [2], 0, 0⟩], [], (0, 0)⟩ =
      some ⟨[], [⟨2, [], [], 0, [], 40, [0x57], [2], 0, 0⟩], [], (0, 0)⟩ :=
  (C6_jumpi kec0 [] [] [] (0, 0) 0 2 1 [] [] [] [0x57] [2] 0 50 0 0
    (by rfl) (by norm_num) (by norm_num) (by norm_num [W64])).2.2
    (by simp) (by norm_num)

/-- Claim C8: a `PUSHn` (opcode `0x5f + n`, `1 ≤ n ≤ 32`) whose `n`
immediate bytes would run past the end of the code pushes the
big-endian value of the available bytes right-padded with zero bytes at
the least-significant end to reach `n` bytes, and sets the program
counter to the code length. -/
theorem C8_push_truncated (kec : List Nat → Nat)
    (ac : List (Nat × Account)) (rest : List Frame) (rd : List Nat) (lcr : Nat × Nat)
    (p n : Nat) (s mem cd co jd : List Nat) (msw g cr ce : Nat)
    (hn1 : 1 ≤ n) (hn2 : n ≤ 32)
    (hcode : co.getD p 0 = 0x5f + n)
    (hpc : p < co.length) (hgas : 3 ≤ g)
    (htr : co.length < p + 1 + n) :
    stepNext kec ⟨ac, ⟨p, s, mem, msw, cd, g, co, jd, cr, ce⟩ :: rest, rd, lcr⟩ =
      some ⟨ac, ⟨co.length,
        beBytesToNat ((co.drop (p + 1)).take n ++ List.replicate (p + 1 + n - co.length) 0) :: s,
        mem, msw, cd, g - 3, co, jd, cr, ce⟩ :: rest, rd, lcr⟩ := by
  unfold stepNext
  simp only [step]
  rw [if_neg (by omega : ¬ p ≥ co.length)]
  rw [hcode]
  simp only [STOP, ADD, MUL, SUB, DIV, EVM.LT, EVM.GT, EQ, ISZERO, SHA3, CALLDATALOAD,
    MLOAD, MSTORE, POP, SLOAD, SSTORE, JUMP, JUMPI, JUMPDEST, PUSH1, PUSH32,
    DUP1, DUP16, SWAP1, SWAP16, CALL, RETURNDATASIZE, RETURNDATACOPY, RETURN,
    REVERT, get_opcode_cost]
  rw [if_neg (by omega : ¬ (0x5f + n = 0 ∨ 0x5f + n = 91))]
  rw [if_neg (by omega : ¬ (0x5f + n = 1 ∨ 0x5f + n = 3 ∨ 0x5f + n = 80 ∨ 0x5f + n = 16 ∨ 0x5f + n = 17 ∨ 0x5f + n = 20 ∨ 0x5f + n = 21))]
  rw [if_neg (by omega : ¬ (0x5f + n = 2 ∨ 0x5f + n = 4))]
  rw [if_pos (by omega : 96 ≤ 0x5f + n ∧ 0x5f + n ≤ 127)]
  rw [if_neg (by omega : ¬ g < 3)]
  rw [if_neg (by omega : ¬ (0x5f + n = 0))]
  rw [if_neg (by omega : ¬ (0x5f + n = 243))]
  rw [if_neg (by omega : ¬ (0x5f + n = 253))]
  rw [if_neg (by omega : ¬ (0x5f + n = 1))]
  rw [if_neg (by omega : ¬ (0x5f + n = 2))]
  rw [if_neg (by omega : ¬ (0x5f + n = 3))]
  rw [if_neg (by omega : ¬ (0x5f + n = 4))]
  rw [if_neg (by omega : ¬ (0x5f + n = 16))]
  rw [if_neg (by omega : ¬ (0x5f + n = 17))]
  rw [if_neg (by omega : ¬ (0x5f + n = 20))]
  rw [if_neg (by omega : ¬ (0x5f + n = 21))]
  rw [if_neg (by omega : ¬ (0x5f + n = 32))]
  rw [if_neg (by omega : ¬ (0x5f + n = 53))]
  rw [if_neg (by omega : ¬ (0x5f + n = 81))]
  rw [if_neg (by omega : ¬ (0x5f + n = 82))]
  rw [if_neg (by omega : ¬ (0x5f + n = 84))]
  rw [if_neg (by omega : ¬ (0x5f + n = 85))]
  rw [if_neg (by omega : ¬ (0x5f + n = 86))]
  rw [if_neg (by omega : ¬ (0x5f + n = 87))]
  rw [if_neg (by omega : ¬ (0x5f + n = 91))]
  rw [if_pos (by omega : 96 ≤ 0x5f + n ∧ 0x5f + n ≤ 127)]
  rw [if_pos (by omega : p + 1 + (0x5f + n - 96 + 1) > co.length)]
  have ha : 0x5f + n - 96 + 1 = n := by omega
  rw [ha]
  have h1 : (co.drop (p + 1)).take n = co.drop (p + 1) :=
    List.take_of_length_le (by rw [List.length_drop]; omega)
  have h2 : n - (co.drop (p + 1)).length = p + 1 + n - co.length := by
    rw [List.length_drop]; omega
  rw [h1, h2]

/-- Witness for `C8_push_truncated`: a 1-byte program consisting of a
bare `PUSH1` pushes `0` (one zero pad byte) and parks the program
counter at the code end. -/
theorem C8_push_truncated_witness :
    stepNext kec0 ⟨[], [⟨0, [], [], 0, [], 10, [0x60], [], 0, 0⟩], [], (0, 0)⟩ =
      some ⟨[], [⟨1, [0], [], 0, [], 7, [0x60], [], 0, 0⟩], [], (0, 0)⟩ :=
  C8_push_truncated kec0 [] [] [] (0, 0) 0 1 [] [] [] [0x60] [] 0 10 0 0
    (by norm_num) (by norm_num) (by rfl) (by norm_num) (by norm_num) (by norm_num)

/-- Symbolic evaluation of one `RETURNDATASIZE` step: push the length
of the return-data buffer; no gas is charged. -/
theorem step_rds (kec : List Nat → Nat)
    (ac : List (Nat × Account)) (rest : List Frame) (rd : List Nat) (lcr : Nat × Nat)
    (p : Nat) (s mem cd co jd : List Nat) (msw g cr ce : Nat)
    (hcode : co.getD p 0 = 0x3d) (hpc : p < co.length) :
    step kec ⟨ac, ⟨p, s, mem, msw, cd, g, co, jd, cr, ce⟩ :: rest, rd, lcr⟩ =
      .next ⟨ac, ⟨p + 1, rd.length :: s, mem, msw, cd, g, co, jd, cr, ce⟩ :: rest, rd, lcr⟩ := by
  simp only [step]
  rw [if_neg (by omega : ¬ p ≥ co.length)]
  rw [hcode]
  norm_num [get_opcode_cost]

/-- One step of `c3code`: the `RETURNDATASIZE` at `pc = k` pushes a
zero word. -/
theorem c3_step (k : Nat) (hk : k < 1025) :
    step kec0 (c3state k) = .next (c3state (k + 1)) := by
  have hlen : c3code.length = 1025 := by
    rw [show c3code = List.replicate 1025 0x3d from rfl]; simp
  have hget : c3code.getD k 0 = 0x3d := by
    rw [show c3code = List.replicate 1025 0x3d from rfl,
      List.getD_eq_getElem?_getD, List.getElem?_replicate_of_lt hk]
    rfl
  have hpc : k < c3code.length := by rw [hlen]; exact hk
  unfold c3state
  rw [step_rds kec0 _ _ _ _ k _ _ _ _ _ _ _ _ _ hget hpc]
  norm_num [List.replicate_succ]

/-- Executing `n` steps of `c3code` from the depth-`k` state reaches the
depth-`k + n` state. -/
theorem c3_steps (n : Nat) : ∀ k, k + n ≤ 1025 →
    stepN kec0 n (c3state k) = some (c3state (k + n)) := by
  induction n with
  | zero => intro k h; simp [stepN]
  | succ n ih =>
    intro k h
    have h1 : k + (n + 1) = (k + 1) + n := by omega
    rw [h1, stepN]
    rw [if_neg (by simp [c3state] : ¬ (c3state k).call_stack.isEmpty = true)]
    rw [c3_step k (by omega)]
    exact ih (k + 1) (by omega)

/-- Claim C3, counterexample to the depth bound: from a machine built by
`Machine.new` on 1025 `RETURNDATASIZE` opcodes, 1025 steps of `run`
complete normally and leave the operand stack at depth 1025 > 1024 —
the code never checks the 1024 cap. -/
theorem C3_counterexample :
    stepN kec0 1025 (Machine.new c3code [] [] 0) = some (c3state 1025) ∧
    (c3state 1025).call_stack.head?.map (fun f => f.stack.length) = some 1025 ∧
    ¬ (1025 ≤ 1024) := by
  refine ⟨?_, by simp [c3state], by norm_num⟩
  have h0 : Machine.new c3code [] [] 0 = c3state 0 := by rfl
  rw [h0]
  have h := c3_steps 1025 0 (by norm_num)
  simpa using h

/-- The base cost of any `DUPn` is 3. -/
theorem get_opcode_cost_dup (op : Nat) (h1 : 0x80 ≤ op) (h2 : op ≤ 0x8f) :
    get_opcode_cost op = 3 := by
  unfold get_opcode_cost
  simp only [STOP, ADD, MUL, SUB, DIV, EVM.LT, EVM.GT, EQ, ISZERO, SHA3,
    CALLDATALOAD, MLOAD, MSTORE, POP, SLOAD, SSTORE, JUMP, JUMPI, JUMPDEST,
    PUSH1, PUSH32, DUP1, DUP16, SWAP1, SWAP16]
  rw [if_neg (by omega), if_neg (by omega), if_neg (by omega),
    if_neg (by omega), if_pos (by omega)]

/-- The base cost of any `SWAPn` is 3. -/
theorem get_opcode_cost_swap (op : Nat) (h1 : 0x90 ≤ op) (h2 : op ≤ 0x9f) :
    get_opcode_cost op = 3 := by
  unfold get_opcode_cost
  simp only [STOP, ADD, MUL, SUB, DIV, EVM.LT, EVM.GT, EQ, ISZERO, SHA3,
    CALLDATALOAD, MLOAD, MSTORE, POP, SLOAD, SSTORE, JUMP, JUMPI, JUMPDEST,
    PUSH1, PUSH32, DUP1, DUP16, SWAP1, SWAP16]
  rw [if_neg (by omega), if_neg (by omega), if_neg (by omega),
    if_neg (by omega), if_neg (by omega), if_pos (by omega)]

/-- Claim C3 as amended: the depth cap does not hold (the code never
checks it — see the counterexample), but the underflow half of the
claim does: for every opcode that pops (the arithmetic, comparison,
memory, storage, jump, call and return opcodes, and every `DUPn` /
`SWAPn`), executing it on a frame whose operand stack is empty fails
with `StackUnderflow` rather than reading arbitrary data, for any gas
amount covering the opcode's base cost. -/
theorem C3_underflow_checked (kec : List Nat → Nat)
    (ac : List (Nat × Account)) (rest : List Frame) (rd : List Nat) (lcr : Nat × Nat)
    (p : Nat) (mem cd co jd : List Nat) (msw g cr ce : Nat) (op : Nat)
    (hop : op = 0x01 ∨ op = 0x02 ∨ op = 0x03 ∨ op = 0x04 ∨ op = 0x10 ∨
      op = 0x11 ∨ op = 0x14 ∨ op = 0x15 ∨ op = 0x20 ∨ op = 0x35 ∨ op = 0x3e ∨
      op = 0x50 ∨ op = 0x51 ∨ op = 0x52 ∨ op = 0x54 ∨ op = 0x55 ∨ op = 0x56 ∨
      op = 0x57 ∨ (0x80 ≤ op ∧ op ≤ 0x8f) ∨ (0x90 ≤ op ∧ op ≤ 0x9f) ∨
      op = 0xf1 ∨ op = 0xf3 ∨ op = 0xfd)
    (hcode : co.getD p 0 = op) (hpc : p < co.length)
    (hgas : get_opcode_cost op ≤ g) :
    stepResult kec ⟨ac, ⟨p, [], mem, msw, cd, g, co, jd, cr, ce⟩ :: rest, rd, lcr⟩ =
      some .StackUnderflow := by
  rcases hop with rfl | rfl | rfl | rfl | rfl | rfl | rfl | rfl | rfl | rfl |
    rfl | rfl | rfl | rfl | rfl | rfl | rfl | rfl | ⟨h1, h2⟩ | ⟨h1, h2⟩ |
    rfl | rfl | rfl
  all_goals first
  | -- DUPn with an empty stack
    (have hg3 : 3 ≤ g := by rw [get_opcode_cost_dup op h1 h2] at hgas; exact hgas
     unfold stepResult
     simp only [step]
     rw [if_neg (by omega : ¬ p ≥ co.length)]
     rw [hcode]
     simp only [STOP, ADD, MUL, SUB, DIV, EVM.LT, EVM.GT, EQ, ISZERO, SHA3,
       CALLDATALOAD, MLOAD, MSTORE, POP, SLOAD, SSTORE, JUMP, JUMPI, JUMPDEST,
       PUSH1, PUSH32, DUP1, DUP16, SWAP1, SWAP16, CALL, RETURNDATASIZE,
       RETURNDATACOPY, RETURN, REVERT]
     rw [get_opcode_cost_dup op (by omega) (by omega)]
     rw [if_neg (Nat.not_lt.mpr hg3)]
     rw [if_neg (by omega : ¬ (op = 0))]
     rw [if_neg (by omega : ¬ (op = 243))]
     rw [if_neg (by omega : ¬ (op = 253))]
     rw [if_neg (by omega : ¬ (op = 1))]
     rw [if_neg (by omega : ¬ (op = 2))]
     rw [if_neg (by omega : ¬ (op = 3))]
     rw [if_neg (by omega : ¬ (op = 4))]
     rw [if_neg (by omega : ¬ (op = 16))]
     rw [if_neg (by omega : ¬ (op = 17))]
     rw [if_neg (by omega : ¬ (op = 20))]
     rw [if_neg (by omega : ¬ (op = 21))]
     rw [if_neg (by omega : ¬ (op = 32))]
     rw [if_neg (by omega : ¬ (op = 53))]
     rw [if_neg (by omega : ¬ (op = 81))]
     rw [if_neg (by omega : ¬ (op = 82))]
     rw [if_neg (by omega : ¬ (op = 84))]
     rw [if_neg (by omega : ¬ (op = 85))]
     rw [if_neg (by omega : ¬ (op = 86))]
     rw [if_neg (by omega : ¬ (op = 87))]
     rw [if_neg (by omega : ¬ (op = 91))]
     rw [if_neg (by omega : ¬ (96 ≤ op ∧ op ≤ 127))]
     rw [if_neg (by omega : ¬ (op = 80))]
     rw [if_pos (by omega : 128 ≤ op ∧ op ≤ 143)]
     rw [if_pos (by simp : List.length ([] : List Nat) ≤ op - 128)]
     done)
  | -- SWAPn with an empty stack
    (have hg3 : 3 ≤ g := by rw [get_opcode_cost_swap op h1 h2] at hgas; exact hgas
     unfold stepResult
     simp only [step]
     rw [if_neg (by omega : ¬ p ≥ co.length)]
     rw [hcode]
     simp only [STOP, ADD, MUL, SUB, DIV, EVM.LT, EVM.GT, EQ, ISZERO, SHA3,
       CALLDATALOAD, MLOAD, MSTORE, POP, SLOAD, SSTORE, JUMP, JUMPI, JUMPDEST,
       PUSH1, PUSH32, DUP1, DUP16, SWAP1, SWAP16, CALL, RETURNDATASIZE,
       RETURNDATACOPY, RETURN, REVERT]
     rw [get_opcode_cost_swap op (by omega) (by omega)]
     rw [if_neg (Nat.not_lt.mpr hg3)]
     rw [if_neg (by omega : ¬ (op = 0))]
     rw [if_neg (by omega : ¬ (op = 243))]
     rw [if_neg (by omega : ¬ (op = 253))]
     rw [if_neg (by omega : ¬ (op = 1))]
     rw [if_neg (by omega : ¬ (op = 2))]
     rw [if_neg (by omega : ¬ (op = 3))]
     rw [if_neg (by omega : ¬ (op = 4))]
     rw [if_neg (by omega : ¬ (op = 16))]
     rw [if_neg (by omega : ¬ (op = 17))]
     rw [if_neg (by omega : ¬ (op = 20))]
     rw [if_neg (by omega : ¬ (op = 21))]
     rw [if_neg (by omega : ¬ (op = 32))]
     rw [if_neg (by omega : ¬ (op = 53))]
     rw [if_neg (by omega : ¬ (op = 81))]
     rw [if_neg (by omega : ¬ (op = 82))]
     rw [if_neg (by omega : ¬ (op = 84))]
     rw [if_neg (by omega : ¬ (op = 85))]
     rw [if_neg (by omega : ¬ (op = 86))]
     rw [if_neg (by omega : ¬ (op = 87))]
     rw [if_neg (by omega : ¬ (op = 91))]
     rw [if_neg (by omega : ¬ (96 ≤ op ∧ op ≤ 127))]
     rw [if_neg (by omega : ¬ (op = 80))]
     rw [if_neg (by omega : ¬ (128 ≤ op ∧ op ≤ 143))]
     rw [if_pos (by omega : 144 ≤ op ∧ op ≤ 159)]
     rw [if_pos (by simp : List.length ([] : List Nat) ≤ op - 144 + 1)]
     done)
  | -- a single pop-first opcode with an empty stack
    (unfold stepResult
     simp only [step]
     rw [if_neg (by omega : ¬ p ≥ co.length)]
     rw [hcode]
     simp only [get_opcode_cost, popF]
     norm_num
     try (norm_num [get_opcode_cost] at hgas; rw [if_neg (Nat.not_lt.mpr hgas)])
     try norm_num [popF]
     done)

/-- Witness for `C3_underflow_checked`: `ADD` on an empty stack with
just enough gas fails with `StackUnderflow`. -/
theorem C3_underflow_checked_witness :
    stepResult kec0 ⟨[], [⟨0, [], [], 0, [], 3, [0x01], [], 0, 0⟩], [], (0, 0)⟩ =
      some .StackUnderflow :=
  C3_underflow_checked kec0 [] [] [] (0, 0) 0 [] [] [0x01] [] 0 3 0 0 0x01
    (by simp) (by rfl) (by norm_num) (by norm_num [get_opcode_cost])

/-- Truncating to 64 bits is idempotent: a word and its low-64-bit
residue have the same `as_limbs()[0]` value. -/
theorem limb0_mod (w : Nat) : limb0 (w % W64) = limb0 w :=
  Nat.mod_mod_of_dvd w dvd_rfl

/-- Claim C9: every opcode that interprets a popped word as a byte
offset, size or jump destination uses only the word's low 64 bits —
executing the opcode with a word `w` on the stack is identical to
executing it with `w % 2^64`.  The ten conjuncts cover `RETURN`,
`REVERT` (offset and size), `JUMP` (destination), `JUMPI`
(destination; the condition word is compared in full), `MLOAD`,
`MSTORE`, `CALLDATALOAD` (offset), `SHA3` (offset and size), `CALL`
(`args_offset`, `args_size`, `ret_offset`, `ret_size`; the gas-limit,
address and value words are not offset words), and `RETURNDATACOPY`
(all three operands). -/
theorem C9_offsets_truncated_to_64_bits :
    (∀ (kec : List Nat → Nat) (ac : List (Nat × Account)) (rest : List Frame)
      (rd : List Nat) (lcr : Nat × Nat) (p : Nat) (w w' : Nat) (s mem cd co jd : List Nat)
      (msw g cr ce : Nat), co.getD p 0 = 0xf3 → p < co.length →
      step kec ⟨ac, ⟨p, w :: w' :: s, mem, msw, cd, g, co, jd, cr, ce⟩ :: rest, rd, lcr⟩ =
      step kec ⟨ac, ⟨p, w % W64 :: w' % W64 :: s, mem, msw, cd, g, co, jd, cr, ce⟩ :: rest, rd, lcr⟩) ∧
    (∀ (kec : List Nat → Nat) (ac : List (Nat × Account)) (rest : List Frame)
      (rd : List Nat) (lcr : Nat × Nat) (p : Nat) (w w' : Nat) (s mem cd co jd : List Nat)
      (msw g cr ce : Nat), co.getD p 0 = 0xfd → p < co.length →
      step kec ⟨ac, ⟨p, w :: w' :: s, mem, msw, cd, g, co, jd, cr, ce⟩ :: rest, rd, lcr⟩ =
      step kec ⟨ac, ⟨p, w % W64 :: w' % W64 :: s, mem, msw, cd, g, co, jd, cr, ce⟩ :: rest, rd, lcr⟩) ∧
    (∀ (kec : List Nat → Nat) (ac : List (Nat × Account)) (rest : List Frame)
      (rd : List Nat) (lcr : Nat × Nat) (p : Nat) (w : Nat) (s mem cd co jd : List Nat)
      (msw g cr ce : Nat), co.getD p 0 = 0x56 → p < co.length → 8 ≤ g →
      step kec ⟨ac, ⟨p, w :: s, mem, msw, cd, g, co, jd, cr, ce⟩ :: rest, rd, lcr⟩ =
      step kec ⟨ac, ⟨p, w % W64 :: s, mem, msw, cd, g, co, jd, cr, ce⟩ :: rest, rd, lcr⟩) ∧
    (∀ (kec : List Nat → Nat) (ac : List (Nat × Account)) (rest : List Frame)
      (rd : List Nat) (lcr : Nat × Nat) (p : Nat) (w w' : Nat) (s mem cd co jd : List Nat)
      (msw g cr ce : Nat), co.getD p 0 = 0x57 → p < co.length → 10 ≤ g →
      step kec ⟨ac, ⟨p, w :: w' :: s, mem, msw, cd, g, co, jd, cr, ce⟩ :: rest, rd, lcr⟩ =
      step kec ⟨ac, ⟨p, w % W64 :: w' :: s, mem, msw, cd, g, co, jd, cr, ce⟩ :: rest, rd, lcr⟩) ∧
    (∀ (kec : List Nat → Nat) (ac : List (Nat × Account)) (rest : List Frame)
      (rd : List Nat) (lcr : Nat × Nat) (p : Nat) (w : Nat) (s mem cd co jd : List Nat)
      (msw g cr ce : Nat), co.getD p 0 = 0x51 → p < co.length → 3 ≤ g →
      step kec ⟨ac, ⟨p, w :: s, mem, msw, cd, g, co, jd, cr, ce⟩ :: rest, rd, lcr⟩ =
      step kec ⟨ac, ⟨p, w % W64 :: s, mem, msw, cd, g, co, jd, cr, ce⟩ :: rest, rd, lcr⟩) ∧
    (∀ (kec : List Nat → Nat) (ac : List (Nat × Account)) (rest : List Frame)
      (rd : List Nat) (lcr : Nat × Nat) (p : Nat) (w w' : Nat) (s mem cd co jd : List Nat)
      (msw g cr ce : Nat), co.getD p 0 = 0x52 → p < co.length → 3 ≤ g →
      step kec ⟨ac, ⟨p, w :: w' :: s, mem, msw, cd, g, co, jd, cr, ce⟩ :: rest, rd, lcr⟩ =
      step kec ⟨ac, ⟨p, w % W64 :: w' :: s, mem, msw, cd, g, co, jd, cr, ce⟩ :: rest, rd, lcr⟩) ∧
    (∀ (kec : List Nat → Nat) (ac : List (Nat × Account)) (rest : List Frame)
      (rd : List Nat) (lcr : Nat × Nat) (p : Nat) (w : Nat) (s mem cd co jd : List Nat)
      (msw g cr ce : Nat), co.getD p 0 = 0x35 → p < co.length →
      step kec ⟨ac, ⟨p, w :: s, mem, msw, cd, g, co, jd, cr, ce⟩ :: rest, rd, lcr⟩ =
      step kec ⟨ac, ⟨p, w % W64 :: s, mem, msw, cd, g, co, jd, cr, ce⟩ :: rest, rd, lcr⟩) ∧
    (∀ (kec : List Nat → Nat) (ac : List (Nat × Account)) (rest : List Frame)
      (rd : List Nat) (lcr : Nat × Nat) (p : Nat) (w w' : Nat) (s mem cd co jd : List Nat)
      (msw g cr ce : Nat), co.getD p 0 = 0x20 → p < co.length → 30 ≤ g →
      step kec ⟨ac, ⟨p, w :: w' :: s, mem, msw, cd, g, co, jd, cr, ce⟩ :: rest, rd, lcr⟩ =
      step kec ⟨ac, ⟨p, w % W64 :: w' % W64 :: s, mem, msw, cd, g, co, jd, cr, ce⟩ :: rest, rd, lcr⟩) ∧
    (∀ (kec : List Nat → Nat) (ac : List (Nat × Account)) (rest : List Frame)
      (rd : List Nat) (lcr : Nat × Nat) (p : Nat) (L toW v w4 w5 w6 w7 : Nat)
      (s mem cd co jd : List Nat) (msw g cr ce : Nat),
      co.getD p 0 = 0xf1 → p < co.length →
      step kec ⟨ac, ⟨p, L :: toW :: v :: w4 :: w5 :: w6 :: w7 :: s, mem, msw, cd, g, co, jd, cr, ce⟩ :: rest, rd, lcr⟩ =
      step kec ⟨ac, ⟨p, L :: toW :: v :: w4 % W64 :: w5 % W64 :: w6 % W64 :: w7 % W64 :: s, mem, msw, cd, g, co, jd, cr, ce⟩ :: rest, rd, lcr⟩) ∧
    (∀ (kec : List Nat → Nat) (ac : List (Nat × Account)) (rest : List Frame)
      (rd : List Nat) (lcr : Nat × Nat) (p : Nat) (w w' w'' : Nat) (s mem cd co jd : List Nat)
      (msw g cr ce : Nat), co.getD p 0 = 0x3e → p < co.length →
      step kec ⟨ac, ⟨p, w :: w' :: w'' :: s, mem, msw, cd, g, co, jd, cr, ce⟩ :: rest, rd, lcr⟩ =
      step kec ⟨ac, ⟨p, w % W64 :: w' % W64 :: w'' % W64 :: s, mem, msw, cd, g, co, jd, cr, ce⟩ :: rest, rd, lcr⟩) := by
  refine ⟨?_, ?_, ?_, ?_, ?_, ?_, ?_, ?_, ?_, ?_⟩
  · intro kec ac rest rd lcr p w w' s mem cd co jd msw g cr ce hcode hpc
    have hpc' : ¬ p ≥ co.length := by omega
    rw [List.getD_eq_getElem?_getD] at hcode
    simp [step, popF, get_opcode_cost, hcode, hpc', limb0_mod]
  · intro kec ac rest rd lcr p w w' s mem cd co jd msw g cr ce hcode hpc
    have hpc' : ¬ p ≥ co.length := by omega
    rw [List.getD_eq_getElem?_getD] at hcode
    simp [step, popF, get_opcode_cost, hcode, hpc', limb0_mod]
  · intro kec ac rest rd lcr p w s mem cd co jd msw g cr ce hcode hpc hgas
    have hpc' : ¬ p ≥ co.length := by omega
    have hgas' : ¬ g < 8 := by omega
    rw [List.getD_eq_getElem?_getD] at hcode
    simp [step, popF, get_opcode_cost, hcode, hpc', hgas', limb0_mod]
  · intro kec ac rest rd lcr p w w' s mem cd co jd msw g cr ce hcode hpc hgas
    have hpc' : ¬ p ≥ co.length := by omega
    have hgas' : ¬ g < 10 := by omega
    rw [List.getD_eq_getElem?_getD] at hcode
    simp [step, popF, get_opcode_cost, hcode, hpc', hgas', limb0_mod]
  · intro kec ac rest rd lcr p w s mem cd co jd msw g cr ce hcode hpc hgas
    have hpc' : ¬ p ≥ co.length := by omega
    have hgas' : ¬ g < 3 := by omega
    rw [List.getD_eq_getElem?_getD] at hcode
    simp [step, popF, get_opcode_cost, hcode, hpc', hgas', limb0_mod]
  · intro kec ac rest rd lcr p w w' s mem cd co jd msw g cr ce hcode hpc hgas
    have hpc' : ¬ p ≥ co.length := by omega
    have hgas' : ¬ g < 3 := by omega
    rw [List.getD_eq_getElem?_getD] at hcode
    simp [step, popF, get_opcode_cost, hcode, hpc', hgas', limb0_mod]
  · intro kec ac rest rd lcr p w s mem cd co jd msw g cr ce hcode hpc
    have hpc' : ¬ p ≥ co.length := by omega
    rw [List.getD_eq_getElem?_getD] at hcode
    simp [step, popF, get_opcode_cost, hcode, hpc', limb0_mod]
  · intro kec ac rest rd lcr p w w' s mem cd co jd msw g cr ce hcode hpc hgas
    have hpc' : ¬ p ≥ co.length := by omega
    have hgas' : ¬ g < 30 := by omega
    rw [List.getD_eq_getElem?_getD] at hcode
    simp [step, popF, get_opcode_cost, hcode, hpc', hgas', limb0_mod]
  · intro kec ac rest rd lcr p L toW v w4 w5 w6 w7 s mem cd co jd msw g cr ce hcode hpc
    have hpc' : ¬ p ≥ co.length := by omega
    rw [List.getD_eq_getElem?_getD] at hcode
    simp [step, popF, get_opcode_cost, hcode, hpc', limb0_mod]
  · intro kec ac rest rd lcr p w w' w'' s mem cd co jd msw g cr ce hcode hpc
    have hpc' : ¬ p ≥ co.length := by omega
    rw [List.getD_eq_getElem?_getD] at hcode
    simp [step, popF, get_opcode_cost, hcode, hpc', limb0_mod]

/-- Witness for `C9_offsets_truncated_to_64_bits` (the `JUMP`
conjunct): jumping with destination word `2^64 + 2` behaves exactly
like jumping with destination `2`. -/
theorem C9_offsets_truncated_witness :
    step kec0 ⟨[], [⟨0, [2 ^ 64 + 2], [], 0, [], 50, [0x56, 0x00, 0x5b], [2], 0, 0⟩], [], (0, 0)⟩ =
      step kec0 ⟨[], [⟨0, [(2 ^ 64 + 2) % W64], [], 0, [], 50, [0x56, 0x00, 0x5b], [2], 0, 0⟩], [], (0, 0)⟩ :=
  C9_offsets_truncated_to_64_bits.2.2.1 kec0 [] [] [] (0, 0) 0 (2 ^ 64 + 2) []
    [] [] [0x56, 0x00, 0x5b] [2] 0 50 0 0 (by rfl) (by norm_num) (by norm_num)

/-- Claim C10: `run` is deterministic — two machines constructed from
identical `(code, calldata, storage, gas_limit)` produce, for any fuel,
the same `ExecutionResult` and the same final account map. -/
theorem C10_run_deterministic (kec : List Nat → Nat) (fuel : Nat)
    (code calldata : List Nat) (storage : List (Nat × Nat)) (gas_limit : Nat)
    (m1 m2 : Machine)
    (h1 : m1 = Machine.new code calldata storage gas_limit)
    (h2 : m2 = Machine.new code calldata storage gas_limit) :
    (runFuel kec fuel m1).map (fun p => p.1) =
      (runFuel kec fuel m2).map (fun p => p.1) ∧
    (runFuel kec fuel m1).map (fun p => p.2.accounts) =
      (runFuel kec fuel m2).map (fun p => p.2.accounts) := by
  subst h1; subst h2; exact ⟨rfl, rfl⟩

/-- Witness for `C10_run_deterministic` at a concrete program. -/
theorem C10_run_deterministic_witness :
    (runFuel kec0 10 (Machine.new [0x60, 0x05, 0x00] [] [] 50)).map (fun p => p.1) =
      (runFuel kec0 10 (Machine.new [0x60, 0x05, 0x00] [] [] 50)).map (fun p => p.1) ∧
    (runFuel kec0 10 (Machine.new [0x60, 0x05, 0x00] [] [] 50)).map (fun p => p.2.accounts) =
      (runFuel kec0 10 (Machine.new [0x60, 0x05, 0x00] [] [] 50)).map (fun p => p.2.accounts) := by
  exact C10_run_deterministic kec0 10 [0x60, 0x05, 0x00] [] [] 50 _ _ rfl rfl

end EVM
